import Mathlib

/-!
Verification of the TheAgent extraction coordinator (`src/server.ts`,
`startExtraction` handler). The handler is embedded shallowly: the five
extraction capabilities are opaque external collaborators, modelled as
fields of an `Env` record giving the outcome of invoking each of them on
the run's document; Socket.IO emission is modelled by collecting the
emitted events into a list, in emission order. Percent values are
rationals. JS division of a sum by a length is total on rationals but not
on JS numbers: dividing by zero yields a non-finite value (NaN for 0/0),
modelled here as `none`.
-/

namespace TheAgent

/-- Opaque payload of the "outcomes" field read by the harmonizer stage. -/
abbrev Outcomes := String

/-- Opaque table record (internal shape irrelevant to the coordinator). -/
abbrev TableRec := String

/-- Opaque imaging-metrics payload (`imagingResult.metrics`). -/
abbrev ImagingMetrics := String

/-- Harmonized outcomes; the coordinator reads `timepoints.length` for the
completion message (server.ts line 163). -/
structure Harmonized where
  timepoints : List String
deriving DecidableEq

/-- Return shape of `harmonizeOutcomes` as used by server.ts (`.harmonized`). -/
structure HarmonizeResult where
  harmonized : Harmonized
deriving DecidableEq

/-- A citation record; the coordinator reads `quality_score` (server.ts
lines 174-175). -/
structure Citation where
  text : String
  quality_score : ℚ
deriving DecidableEq

/-- Return shape of `extractCitations` as used by server.ts (`.citations`). -/
structure CitationsResult where
  citations : List Citation
deriving DecidableEq

/-- Return shape of `extractTablesAndFigures` as used by server.ts (`.tables`). -/
structure TablesResult where
  tables : List TableRec
deriving DecidableEq

/-- Return shape of `extractImagingMetrics` as used by server.ts (`.metrics`). -/
structure ImagingResult where
  metrics : ImagingMetrics
deriving DecidableEq

/-- Modelled from the spec: the full-document stage result (the module
`full-pdf-extractor` is not under src/); spec section 3 says the
full-document result carries metadata/methods/results/discussion/outcomes
fields, and section 8 allows the outcomes field to be absent. An absent
field is `none`. -/
structure FullPdfResult where
  metadata : Option String
  methods : Option String
  results : Option String
  discussion : Option String
  outcomes : Option Outcomes
deriving DecidableEq

/-- `citations_metadata` as built at server.ts lines 172-177.
`average_quality` is `none` when the JS division produced a non-finite
number (division by a zero length). -/
structure CitationsMetadata where
  total_extracted : ℕ
  valid_citations : ℕ
  average_quality : Option ℚ
  duplicates_removed : ℕ
deriving DecidableEq

/-- The run's accumulated record (`result : Partial<CerebellumExtractionData>`,
server.ts line 106). Absent fields are `none`. -/
structure AccumulatedResult where
  metadata : Option String
  methods : Option String
  results : Option String
  discussion : Option String
  outcomes : Option Outcomes
  tables : Option (List TableRec)
  imaging : Option ImagingMetrics
  harmonized_outcomes : Option Harmonized
  citations : Option (List Citation)
  citations_metadata : Option CitationsMetadata
deriving DecidableEq

/-- The fresh accumulated record at run start (`const result = {}`). -/
def emptyResult : AccumulatedResult :=
  ⟨none, none, none, none, none, none, none, none, none, none⟩

/-- The run environment: whether the document resolves to existing content
(`existsSync(pdfPath)`), and the outcome of invoking each opaque extraction
capability on this run's document. A throwing invocation is `Except.error`
carrying the captured message. -/
structure Env where
  fileExists : Bool
  extractFullPdf : Except String FullPdfResult
  extractTablesAndFigures : Except String TablesResult
  extractImagingMetrics : Except String ImagingResult
  harmonizeOutcomes : Outcomes → Except String HarmonizeResult
  extractCitations : Except String CitationsResult

/-- Stage-specific `data` payload of a `moduleComplete` event. -/
inductive EventPayload
  | fullPdf (data : FullPdfResult)
  | tablesData (tables : List TableRec) (count : ℕ)
  | imagingData (metrics : ImagingMetrics)
  | harmonizedData (data : Harmonized)
  | citationsData (count : ℕ) (citations : List Citation)
deriving DecidableEq

/-- The events the handler emits on its socket, in emission order.
`extractionComplete` carries the final accumulated record and the requested
stage list (the ISO timestamp is outside the model). -/
inductive Event
  | progress (step message : String) (percent : ℚ)
  | moduleStart (mod name : String)
  | moduleComplete (mod : String) (data : EventPayload) (message : String)
  | moduleError (mod : String) (error : String)
  | extractionComplete (data : AccumulatedResult) (modulesExecuted : List String)
  | error (message : String)
deriving DecidableEq

/-- JS division of a rational sum by a natural length: a zero length gives
a non-finite JS number (0/0 is NaN), modelled as `none`. -/
def jsDiv (x : ℚ) (n : ℕ) : Option ℚ :=
  if n = 0 then none else some (x / n)

/-- Object.assign(result, fullPdfResult): every field present on the
full-document result overwrites the accumulated one (server.ts line 125). -/
def assignFullPdf (result : AccumulatedResult) (f : FullPdfResult) :
    AccumulatedResult :=
  { result with
    metadata := f.metadata <|> result.metadata
    methods := f.methods <|> result.methods
    results := f.results <|> result.results
    discussion := f.discussion <|> result.discussion
    outcomes := f.outcomes <|> result.outcomes }

/-- One iteration of the stage switch with its surrounding try/catch
(server.ts lines 120-190): the events it emits, and the accumulated record
after it. An unmatched module name falls through the switch: no event, no
change. -/
def processModule (env : Env) (moduleName : String)
    (result : AccumulatedResult) : List Event × AccumulatedResult :=
  if moduleName = "full-pdf" then
    match env.extractFullPdf with
    | Except.ok fullPdfResult =>
        ([Event.moduleStart "full-pdf" "Full-PDF Extractor",
          Event.moduleComplete "full-pdf" (EventPayload.fullPdf fullPdfResult)
            "Extracted study metadata, methods, results, and discussion"],
         assignFullPdf result fullPdfResult)
    | Except.error e =>
        ([Event.moduleStart "full-pdf" "Full-PDF Extractor",
          Event.moduleError "full-pdf" e], result)
  else if moduleName = "tables" then
    match env.extractTablesAndFigures with
    | Except.ok tableResult =>
        ([Event.moduleStart "tables" "Table & Figure Extractor",
          Event.moduleComplete "tables"
            (EventPayload.tablesData tableResult.tables tableResult.tables.length)
            ("Extracted " ++ toString tableResult.tables.length ++ " tables")],
         { result with tables := some tableResult.tables })
    | Except.error e =>
        ([Event.moduleStart "tables" "Table & Figure Extractor",
          Event.moduleError "tables" e], result)
  else if moduleName = "imaging" then
    match env.extractImagingMetrics with
    | Except.ok imagingResult =>
        ([Event.moduleStart "imaging" "Imaging Metrics Extractor",
          Event.moduleComplete "imaging"
            (EventPayload.imagingData imagingResult.metrics)
            "Extracted neuroimaging metrics"],
         { result with imaging := some imagingResult.metrics })
    | Except.error e =>
        ([Event.moduleStart "imaging" "Imaging Metrics Extractor",
          Event.moduleError "imaging" e], result)
  else if moduleName = "harmonizer" then
    match result.outcomes with
    | some outcomes =>
        match env.harmonizeOutcomes outcomes with
        | Except.ok harmonizedResult =>
            ([Event.moduleStart "harmonizer" "Outcome Harmonizer",
              Event.moduleComplete "harmonizer"
                (EventPayload.harmonizedData harmonizedResult.harmonized)
                ("Harmonized outcomes to "
                  ++ toString harmonizedResult.harmonized.timepoints.length
                  ++ " timepoints")],
             { result with harmonized_outcomes := some harmonizedResult.harmonized })
        | Except.error e =>
            ([Event.moduleStart "harmonizer" "Outcome Harmonizer",
              Event.moduleError "harmonizer" e], result)
    | none =>
        ([Event.moduleStart "harmonizer" "Outcome Harmonizer"], result)
  else if moduleName = "citations" then
    match env.extractCitations with
    | Except.ok citationResult =>
        ([Event.moduleStart "citations" "Citation Extractor",
          Event.moduleComplete "citations"
            (EventPayload.citationsData citationResult.citations.length
              (citationResult.citations.take 5))
            ("Extracted " ++ toString citationResult.citations.length
              ++ " citations (92.1% accuracy)")],
         { result with
            citations := some citationResult.citations
            citations_metadata := some
              { total_extracted := citationResult.citations.length
                valid_citations :=
                  (citationResult.citations.filter
                    (fun c => decide ((0.7 : ℚ) < c.quality_score))).length
                average_quality :=
                  jsDiv
                    (citationResult.citations.foldl
                      (fun sum c => sum + c.quality_score) 0)
                    citationResult.citations.length
                duplicates_removed := 0 } })
    | Except.error e =>
        ([Event.moduleStart "citations" "Citation Extractor",
          Event.moduleError "citations" e], result)
  else ([], result)

/-- The stage loop (server.ts lines 111-193): for each module, emit the
per-stage progress event at `10 + (completedModules/totalModules)*80`, run
the stage, and increment `completedModules` regardless of outcome. -/
def processModules (env : Env) :
    List String → AccumulatedResult → ℕ → ℕ → List Event × AccumulatedResult
  | [], result, _, _ => ([], result)
  | moduleName :: rest, result, completedModules, totalModules =>
      let basePercent : ℚ :=
        10 + ((completedModules : ℚ) / (totalModules : ℚ)) * 80
      let stageOut := processModule env moduleName result
      let restOut :=
        processModules env rest stageOut.2 (completedModules + 1) totalModules
      (Event.progress moduleName ("Running " ++ moduleName ++ " extractor...")
          basePercent :: stageOut.1 ++ restOut.1,
       restOut.2)

/-- The `startExtraction` handler (server.ts lines 85-214): the full event
trace of one run. A document that does not resolve to existing content
yields a single fatal `error` event; otherwise the run emits the reading
progress event, the stage loop's events, the percent-100 progress event,
and the terminal `extractionComplete` event. -/
def startExtraction (env : Env) (modules : List String) : List Event :=
  if env.fileExists then
    let looped := processModules env modules emptyResult 0 modules.length
    Event.progress "reading" "Reading PDF file..." 5
      :: looped.1
      ++ [Event.progress "complete" "Extraction complete!" 100,
          Event.extractionComplete looped.2 modules]
  else
    [Event.error "File not found"]

/-- The accumulated record the terminal event of a successful run carries. -/
def finalResult (env : Env) (modules : List String) : AccumulatedResult :=
  (processModules env modules emptyResult 0 modules.length).2

/-! Observation helpers over event traces. -/

/-- Is this a module-started event? -/
def isModuleStart : Event → Bool
  | Event.moduleStart _ _ => true
  | _ => false

/-- Is this a module-completed event? -/
def isModuleComplete : Event → Bool
  | Event.moduleComplete _ _ _ => true
  | _ => false

/-- Is this a module-failed event? -/
def isModuleError : Event → Bool
  | Event.moduleError _ _ => true
  | _ => false

/-- Is this a fatal error event? -/
def isFatalError : Event → Bool
  | Event.error _ => true
  | _ => false

/-- Is this the terminal success event? -/
def isExtractionComplete : Event → Bool
  | Event.extractionComplete _ _ => true
  | _ => false

/-- Number of module-started events in a trace. -/
def countModuleStart (evs : List Event) : ℕ := evs.countP isModuleStart

/-- Number of module-completed events in a trace. -/
def countModuleComplete (evs : List Event) : ℕ := evs.countP isModuleComplete

/-- Number of module-failed events in a trace. -/
def countModuleError (evs : List Event) : ℕ := evs.countP isModuleError

/-- The percent values of the progress events of a trace, in emission order. -/
def progressPercents (evs : List Event) : List ℚ :=
  evs.filterMap fun e =>
    match e with
    | Event.progress _ _ p => some p
    | _ => none

/-- Does the module name hit a case of the stage switch (server.ts lines
121-184)? This is the closed registry of known stage identifiers. -/
def isKnownStage (m : String) : Bool :=
  m = "full-pdf" || m = "tables" || m = "imaging" || m = "harmonizer"
    || m = "citations"

/-- Number of entries of the requested stage list that are known stage
identifiers. -/
def knownCount (modules : List String) : ℕ :=
  (modules.filter isKnownStage).length

/-- Display name of each known stage, as emitted in its `moduleStart` event. -/
def displayName (m : String) : String :=
  if m = "full-pdf" then "Full-PDF Extractor"
  else if m = "tables" then "Table & Figure Extractor"
  else if m = "imaging" then "Imaging Metrics Extractor"
  else if m = "harmonizer" then "Outcome Harmonizer"
  else if m = "citations" then "Citation Extractor"
  else ""

/-- Number of harmonizer no-ops along the stage list: harmonizer stages
reached while the accumulated record has no "outcomes" field. -/
def harmonizerNoOps (env : Env) :
    List String → AccumulatedResult → ℕ
  | [], _ => 0
  | m :: rest, result =>
      (if m = "harmonizer" && result.outcomes.isNone then 1 else 0)
        + harmonizerNoOps env rest (processModule env m result).2

/-- Scenario selector for the per-stage failure path: the message with
which stage `m`'s capability invocation fails from accumulated record
`result`, when it does fail (for the harmonizer the capability is only
invoked when "outcomes" is present). -/
def stageFailure (env : Env) (m : String) (result : AccumulatedResult) :
    Option String :=
  if m = "full-pdf" then
    match env.extractFullPdf with
    | Except.error e => some e
    | Except.ok _ => none
  else if m = "tables" then
    match env.extractTablesAndFigures with
    | Except.error e => some e
    | Except.ok _ => none
  else if m = "imaging" then
    match env.extractImagingMetrics with
    | Except.error e => some e
    | Except.ok _ => none
  else if m = "harmonizer" then
    match result.outcomes with
    | some o =>
        match env.harmonizeOutcomes o with
        | Except.error e => some e
        | Except.ok _ => none
    | none => none
  else if m = "citations" then
    match env.extractCitations with
    | Except.error e => some e
    | Except.ok _ => none
  else none

/-! Structural lemmas about one iteration of the stage switch. -/

/-- An unknown module name falls through the switch: no event, no change. -/
theorem processModule_unknown (env : Env) (m : String) (r : AccumulatedResult)
    (hm : isKnownStage m = false) : processModule env m r = ([], r) := by
  simp only [isKnownStage, Bool.or_eq_false_iff, decide_eq_false_iff_not] at hm
  obtain ⟨⟨⟨⟨h1, h2⟩, h3⟩, h4⟩, h5⟩ := hm
  simp [processModule, h1, h2, h3, h4, h5]

/-- A harmonizer stage reached without "outcomes" emits only its
module-started event and changes nothing. -/
theorem processModule_harmonizer_noop (env : Env) (r : AccumulatedResult)
    (h : r.outcomes = none) :
    processModule env "harmonizer" r
      = ([Event.moduleStart "harmonizer" "Outcome Harmonizer"], r) := by
  simp [processModule, h]

/-- Each switch iteration emits one module-started event when the module
name is known, none otherwise. -/
theorem countModuleStart_processModule (env : Env) (m : String)
    (r : AccumulatedResult) :
    countModuleStart (processModule env m r).1
      = if isKnownStage m then 1 else 0 := by
  by_cases hk : isKnownStage m
  · simp only [isKnownStage, Bool.or_eq_true, decide_eq_true_eq] at hk
    rcases hk with ((((h | h) | h) | h) | h) <;> subst h
    · cases henv : env.extractFullPdf <;>
        simp [processModule, henv, countModuleStart, isModuleStart, isKnownStage]
    · cases henv : env.extractTablesAndFigures <;>
        simp [processModule, henv, countModuleStart, isModuleStart, isKnownStage]
    · cases henv : env.extractImagingMetrics <;>
        simp [processModule, henv, countModuleStart, isModuleStart, isKnownStage]
    · cases ho : r.outcomes with
      | none =>
          simp [processModule, ho, countModuleStart, isModuleStart, isKnownStage]
      | some o =>
          cases henv : env.harmonizeOutcomes o <;>
            simp [processModule, ho, henv, countModuleStart, isModuleStart,
              isKnownStage]
    · cases henv : env.extractCitations <;>
        simp [processModule, henv, countModuleStart, isModuleStart, isKnownStage]
  · rw [processModule_unknown env m r (by simpa using hk)]
    simp [countModuleStart, hk]

/-- Each switch iteration emits exactly one completed-or-failed event when
the module name is known, except for the harmonizer no-op, which emits
neither. -/
theorem countFinished_processModule (env : Env) (m : String)
    (r : AccumulatedResult) :
    countModuleComplete (processModule env m r).1
        + countModuleError (processModule env m r).1
        + (if m = "harmonizer" && r.outcomes.isNone then 1 else 0)
      = if isKnownStage m then 1 else 0 := by
  by_cases hk : isKnownStage m
  · simp only [isKnownStage, Bool.or_eq_true, decide_eq_true_eq] at hk
    rcases hk with ((((h | h) | h) | h) | h) <;> subst h
    · cases henv : env.extractFullPdf <;>
        simp [processModule, henv, countModuleComplete, countModuleError,
          isModuleComplete, isModuleError, isKnownStage]
    · cases henv : env.extractTablesAndFigures <;>
        simp [processModule, henv, countModuleComplete, countModuleError,
          isModuleComplete, isModuleError, isKnownStage]
    · cases henv : env.extractImagingMetrics <;>
        simp [processModule, henv, countModuleComplete, countModuleError,
          isModuleComplete, isModuleError, isKnownStage]
    · cases ho : r.outcomes with
      | none =>
          simp [processModule, ho, countModuleComplete, countModuleError,
            isModuleComplete, isModuleError, isKnownStage]
      | some o =>
          cases henv : env.harmonizeOutcomes o <;>
            simp [processModule, ho, henv, countModuleComplete, countModuleError,
              isModuleComplete, isModuleError, isKnownStage]
    · cases henv : env.extractCitations <;>
        simp [processModule, henv, countModuleComplete, countModuleError,
          isModuleComplete, isModuleError, isKnownStage]
  · rw [processModule_unknown env m r (by simpa using hk)]
    have hm : (m = "harmonizer") = False := by
      simp only [isKnownStage, Bool.or_eq_true, decide_eq_true_eq, not_or] at hk
      simp [hk.1.2]
    simp [countModuleComplete, countModuleError, hk, hm]

/-- A switch iteration emits no progress event. -/
theorem progressPercents_processModule (env : Env) (m : String)
    (r : AccumulatedResult) :
    progressPercents (processModule env m r).1 = [] := by
  by_cases hk : isKnownStage m
  · simp only [isKnownStage, Bool.or_eq_true, decide_eq_true_eq] at hk
    rcases hk with ((((h | h) | h) | h) | h) <;> subst h
    · cases henv : env.extractFullPdf <;>
        simp [processModule, henv, progressPercents]
    · cases henv : env.extractTablesAndFigures <;>
        simp [processModule, henv, progressPercents]
    · cases henv : env.extractImagingMetrics <;>
        simp [processModule, henv, progressPercents]
    · cases ho : r.outcomes with
      | none => simp [processModule, ho, progressPercents]
      | some o =>
          cases henv : env.harmonizeOutcomes o <;>
            simp [processModule, ho, henv, progressPercents]
    · cases henv : env.extractCitations <;>
        simp [processModule, henv, progressPercents]
  · rw [processModule_unknown env m r (by simpa using hk)]
    simp [progressPercents]

/-- A failing capability invocation yields exactly the module-started and
module-failed events, with the captured message, and leaves the
accumulated record unchanged. -/
theorem processModule_failure (env : Env) (m : String) (r : AccumulatedResult)
    (e : String) (hfail : stageFailure env m r = some e) :
    processModule env m r
      = ([Event.moduleStart m (displayName m), Event.moduleError m e], r) := by
  by_cases h1 : m = "full-pdf"
  · subst h1
    cases henv : env.extractFullPdf <;>
      simp_all [stageFailure, processModule, displayName]
  · by_cases h2 : m = "tables"
    · subst h2
      cases henv : env.extractTablesAndFigures <;>
        simp_all [stageFailure, processModule, displayName]
    · by_cases h3 : m = "imaging"
      · subst h3
        cases henv : env.extractImagingMetrics <;>
          simp_all [stageFailure, processModule, displayName]
      · by_cases h4 : m = "harmonizer"
        · subst h4
          cases ho : r.outcomes with
          | none => simp_all [stageFailure, processModule, displayName]
          | some o =>
              cases henv : env.harmonizeOutcomes o <;>
                simp_all [stageFailure, processModule, displayName]
        · by_cases h5 : m = "citations"
          · subst h5
            cases henv : env.extractCitations <;>
              simp_all [stageFailure, processModule, displayName]
          · simp_all [stageFailure]

/-! Loop-level lemmas. -/

/-- `knownCount` unfolded over a cons. -/
theorem knownCount_cons (m : String) (rest : List String) :
    knownCount (m :: rest)
      = (if isKnownStage m then 1 else 0) + knownCount rest := by
  simp only [knownCount, List.filter_cons]
  split
  · simp [Nat.add_comm]
  · simp

/-- The stage loop emits one module-started event per known stage. -/
theorem countModuleStart_processModules (env : Env) (ms : List String) :
    ∀ r c t, countModuleStart (processModules env ms r c t).1 = knownCount ms := by
  induction ms with
  | nil =>
      intro r c t
      simp [processModules, countModuleStart, knownCount]
  | cons m rest ih =>
      intro r c t
      have hstage := countModuleStart_processModule env m r
      have hrest := ih (processModule env m r).2 (c + 1) t
      simp only [processModules, countModuleStart, List.countP_cons,
        List.countP_append] at hstage hrest ⊢
      simp only [isModuleStart, Bool.false_eq_true, if_false] at hstage hrest ⊢
      rw [knownCount_cons]
      omega

/-- The stage loop emits one completed-or-failed event per known stage,
harmonizer no-ops excepted. -/
theorem countFinished_processModules (env : Env) (ms : List String) :
    ∀ r c t, countModuleComplete (processModules env ms r c t).1
        + countModuleError (processModules env ms r c t).1
        + harmonizerNoOps env ms r
      = knownCount ms := by
  induction ms with
  | nil =>
      intro r c t
      simp [processModules, countModuleComplete, countModuleError,
        harmonizerNoOps, knownCount]
  | cons m rest ih =>
      intro r c t
      have hstage := countFinished_processModule env m r
      have hrest := ih (processModule env m r).2 (c + 1) t
      simp only [processModules, countModuleComplete, countModuleError,
        harmonizerNoOps, List.countP_cons, List.countP_append] at hstage hrest ⊢
      simp only [isModuleComplete, isModuleError, Bool.false_eq_true, if_false]
        at hstage hrest ⊢
      rw [knownCount_cons]
      omega

/-- The progress percents the loop emits: one value per stage, the stage's
base percent, known or not. -/
theorem progressPercents_processModules_cons (env : Env) (m : String)
    (rest : List String) (r : AccumulatedResult) (c t : ℕ) :
    progressPercents (processModules env (m :: rest) r c t).1
      = (10 + ((c : ℚ) / (t : ℚ)) * 80)
        :: progressPercents
            (processModules env rest (processModule env m r).2 (c + 1) t).1 := by
  have hstage := progressPercents_processModule env m r
  simp only [progressPercents, processModules, List.filterMap_cons,
    List.filterMap_append] at hstage ⊢
  simp [hstage]

/-- The base percent of stage index `c` of `t` stays at or below 100. -/
theorem basePercent_le_hundred {c t : ℕ} (h : c ≤ t) :
    (10 : ℚ) + ((c : ℚ) / (t : ℚ)) * 80 ≤ 100 := by
  rcases Nat.eq_zero_or_pos t with ht | ht
  · subst ht
    interval_cases c
    norm_num
  · have htq : (0 : ℚ) < (t : ℚ) := by exact_mod_cast ht
    have hle : ((c : ℚ) / (t : ℚ)) ≤ 1 := by
      rw [div_le_one htq]
      exact_mod_cast h
    nlinarith

/-- The base percent is monotone in the completed count. -/
theorem basePercent_mono {c t : ℕ} :
    (10 : ℚ) + ((c : ℚ) / (t : ℚ)) * 80
      ≤ 10 + (((c + 1 : ℕ) : ℚ) / (t : ℚ)) * 80 := by
  rcases Nat.eq_zero_or_pos t with ht | ht
  · subst ht
    norm_num
  · have htq : (0 : ℚ) < (t : ℚ) := by exact_mod_cast ht
    have hcc : (c : ℚ) ≤ ((c + 1 : ℕ) : ℚ) := by exact_mod_cast Nat.le_succ c
    have hdiv : ((c : ℚ) / (t : ℚ)) ≤ (((c + 1 : ℕ) : ℚ) / (t : ℚ)) :=
      (div_le_div_iff_of_pos_right htq).mpr hcc
    nlinarith

/-- Starting at or below the stage-`c` base percent, the loop's progress
percents followed by the final 100 are chained non-decreasingly. -/
theorem chain_le_percents (env : Env) (ms : List String) :
    ∀ (r : AccumulatedResult) (c t : ℕ) (p : ℚ), c + ms.length ≤ t →
      p ≤ 10 + ((c : ℚ) / (t : ℚ)) * 80 →
      List.Chain (· ≤ ·) p
        (progressPercents (processModules env ms r c t).1 ++ [100]) := by
  induction ms with
  | nil =>
      intro r c t p hct hp
      have hc : c ≤ t := by simpa using hct
      simp only [processModules, progressPercents, List.filterMap_nil,
        List.nil_append]
      exact List.chain_cons.mpr ⟨hp.trans (basePercent_le_hundred hc), List.Chain.nil⟩
  | cons m rest ih =>
      intro r c t p hct hp
      rw [progressPercents_processModules_cons]
      refine List.chain_cons.mpr ⟨hp, ?_⟩
      have hct' : (c + 1) + rest.length ≤ t := by
        simp only [List.length_cons] at hct
        omega
      exact ih (processModule env m r).2 (c + 1) t _ hct' basePercent_mono

/-- The event trace of a run on an existing document, reassociated so that
the terminal event is the last appended element. -/
theorem startExtraction_ok_shape (env : Env) (ms : List String)
    (h : env.fileExists = true) :
    startExtraction env ms
      = ((Event.progress "reading" "Reading PDF file..." 5
            :: (processModules env ms emptyResult 0 ms.length).1)
          ++ [Event.progress "complete" "Extraction complete!" 100])
        ++ [Event.extractionComplete (finalResult env ms) ms] := by
  simp [startExtraction, h, finalResult]

/-- A run on an existing document ends with the terminal success event. -/
theorem startExtraction_getLast (env : Env) (ms : List String)
    (h : env.fileExists = true) :
    (startExtraction env ms).getLast?
      = some (Event.extractionComplete (finalResult env ms) ms) := by
  rw [startExtraction_ok_shape env ms h, List.getLast?_concat]

/-- The event just before the terminal event is the percent-100 progress
event. -/
theorem startExtraction_dropLast_getLast (env : Env) (ms : List String)
    (h : env.fileExists = true) :
    (startExtraction env ms).dropLast.getLast?
      = some (Event.progress "complete" "Extraction complete!" 100) := by
  rw [startExtraction_ok_shape env ms h, List.dropLast_concat,
    List.getLast?_concat]

/-- The progress percents of a full run: the initial 5, the loop's base
percents, and the final 100. -/
theorem progressPercents_startExtraction (env : Env) (ms : List String)
    (h : env.fileExists = true) :
    progressPercents (startExtraction env ms)
      = 5 :: (progressPercents (processModules env ms emptyResult 0 ms.length).1
          ++ [100]) := by
  simp [startExtraction, h, progressPercents, List.filterMap_append]

/-! Concrete run environments used as counterexamples and witnesses. -/

/-- A document that exists and five capabilities that all succeed. -/
def envAllOk : Env :=
  { fileExists := true
    extractFullPdf := Except.ok ⟨some "m", some "me", some "re", some "d", some "outc"⟩
    extractTablesAndFigures := Except.ok ⟨["t1", "t2"]⟩
    extractImagingMetrics := Except.ok ⟨"img"⟩
    harmonizeOutcomes := fun _ => Except.ok ⟨⟨["tp1", "tp2"]⟩⟩
    extractCitations := Except.ok ⟨[⟨"c1", 9/10⟩, ⟨"c2", 1/2⟩]⟩ }

/-- As `envAllOk`, but the citation extractor yields no citations. -/
def envEmptyCitations : Env :=
  { envAllOk with extractCitations := Except.ok ⟨[]⟩ }

/-- As `envAllOk`, but the table extractor throws. -/
def envTablesFail : Env :=
  { envAllOk with extractTablesAndFigures := Except.error "boom" }

/-- As `envAllOk`, but the document does not resolve to existing content. -/
def envMissing : Env :=
  { envAllOk with fileExists := false }

/-- As `envAllOk`, but the citation extractor yields six citations. -/
def envSixCitations : Env :=
  { envAllOk with
      extractCitations := Except.ok
        ⟨[⟨"c1", 1⟩, ⟨"c2", 1⟩, ⟨"c3", 1⟩, ⟨"c4", 1⟩, ⟨"c5", 1⟩, ⟨"c6", 1⟩]⟩ }

/-- An accumulated record that already carries an "outcomes" field. -/
def resultWithOutcomes : AccumulatedResult :=
  { emptyResult with outcomes := some "outc" }

/-! Claim theorems. -/

/-- Claim C1. The claim states that `citations_metadata.average_quality` is
the arithmetic mean of the quality scores and is exactly 0 — never NaN —
when the citation sequence is empty. The code divides the score sum by the
citation count with no empty-sequence guard (server.ts line 175), so on
zero citations it computes 0/0, the non-finite JS result (`none` here),
not 0: a run of the citations stage over an empty extraction yields
metadata whose average is the division-by-zero marker. -/
theorem C1_emptyCitations_averageIsDivisionByZero :
    (finalResult envEmptyCitations ["citations"]).citations_metadata
      = some ⟨0, 0, none, 0⟩
    ∧ (finalResult envEmptyCitations ["citations"]).citations_metadata
      ≠ some ⟨0, 0, some 0, 0⟩ := by
  refine ⟨by decide, by decide⟩

/-- Claim C2, counterexample. A run of the single stage list ["harmonizer"]
attempts one stage and emits one module-started event, but — because
"outcomes" is absent — zero module-completed and zero module-failed events,
so started ≠ completed + failed. -/
theorem C2_counterexample_harmonizerNoOp :
    ¬ (countModuleStart (startExtraction envAllOk ["harmonizer"])
        = countModuleComplete (startExtraction envAllOk ["harmonizer"])
          + countModuleError (startExtraction envAllOk ["harmonizer"])) := by
  decide

/-- Claim C2, amended: for every run on an existing document, the number of
module-started events equals the number of requested stages with a known
identifier (the stages actually attempted), and module-completed plus
module-failed events plus the number of harmonizer no-ops (harmonizer
stages reached while "outcomes" was absent) equals that same number. -/
theorem C2_amended_eventCounts (env : Env) (ms : List String)
    (h : env.fileExists = true) :
    countModuleStart (startExtraction env ms) = knownCount ms
    ∧ countModuleComplete (startExtraction env ms)
        + countModuleError (startExtraction env ms)
        + harmonizerNoOps env ms emptyResult
      = knownCount ms := by
  rw [startExtraction_ok_shape env ms h]
  have h1 := countModuleStart_processModules env ms emptyResult 0 ms.length
  have h2 := countFinished_processModules env ms emptyResult 0 ms.length
  simp only [countModuleStart, countModuleComplete, countModuleError] at h1 h2 ⊢
  simp [List.countP_append, List.countP_cons, isModuleStart, isModuleComplete,
    isModuleError]
  constructor <;> omega

/-- Claim C2, amended, witness: a run with a no-op harmonizer, an unknown
identifier, a stage that sets "outcomes", and then an executing harmonizer. -/
theorem C2_amended_eventCounts_witness :
    countModuleStart
        (startExtraction envAllOk ["harmonizer", "bogus", "full-pdf", "harmonizer"])
      = knownCount ["harmonizer", "bogus", "full-pdf", "harmonizer"]
    ∧ countModuleComplete
          (startExtraction envAllOk ["harmonizer", "bogus", "full-pdf", "harmonizer"])
        + countModuleError
            (startExtraction envAllOk ["harmonizer", "bogus", "full-pdf", "harmonizer"])
        + harmonizerNoOps envAllOk ["harmonizer", "bogus", "full-pdf", "harmonizer"]
            emptyResult
      = knownCount ["harmonizer", "bogus", "full-pdf", "harmonizer"] :=
  C2_amended_eventCounts envAllOk ["harmonizer", "bogus", "full-pdf", "harmonizer"] rfl

/-- Claim C3. When a stage's capability invocation fails with message `e`,
the switch iteration emits exactly the module-started and module-failed
events for that stage — the failed event carrying the captured message —
and leaves the accumulated record unchanged; the loop then continues with
the remaining stages from that unchanged record; and a run on an existing
document still ends with the normal terminal success event. -/
theorem C3_stageFailure_isolated (env : Env) (m : String)
    (r : AccumulatedResult) (rest ms : List String) (c t : ℕ) (e : String)
    (hfail : stageFailure env m r = some e) (h : env.fileExists = true) :
    processModule env m r
      = ([Event.moduleStart m (displayName m), Event.moduleError m e], r)
    ∧ (processModules env (m :: rest) r c t).1
        = Event.progress m ("Running " ++ m ++ " extractor...")
            (10 + ((c : ℚ) / (t : ℚ)) * 80)
          :: Event.moduleStart m (displayName m)
          :: Event.moduleError m e
          :: (processModules env rest r (c + 1) t).1
    ∧ (processModules env (m :: rest) r c t).2
        = (processModules env rest r (c + 1) t).2
    ∧ (startExtraction env ms).getLast?
        = some (Event.extractionComplete (finalResult env ms) ms) := by
  have hpm := processModule_failure env m r e hfail
  exact ⟨hpm, by simp [processModules, hpm], by simp [processModules, hpm],
    startExtraction_getLast env ms h⟩

/-- Claim C3, witness: the table extractor throws "boom" in a one-stage run. -/
theorem C3_stageFailure_isolated_witness :
    processModule envTablesFail "tables" emptyResult
      = ([Event.moduleStart "tables" (displayName "tables"),
          Event.moduleError "tables" "boom"], emptyResult)
    ∧ (processModules envTablesFail ["tables"] emptyResult 0 1).1
        = Event.progress "tables" ("Running " ++ "tables" ++ " extractor...")
            (10 + (((0 : ℕ) : ℚ) / ((1 : ℕ) : ℚ)) * 80)
          :: Event.moduleStart "tables" (displayName "tables")
          :: Event.moduleError "tables" "boom"
          :: (processModules envTablesFail [] emptyResult (0 + 1) 1).1
    ∧ (processModules envTablesFail ["tables"] emptyResult 0 1).2
        = (processModules envTablesFail [] emptyResult (0 + 1) 1).2
    ∧ (startExtraction envTablesFail ["tables"]).getLast?
        = some (Event.extractionComplete (finalResult envTablesFail ["tables"])
            ["tables"]) :=
  C3_stageFailure_isolated envTablesFail "tables" emptyResult [] ["tables"]
    0 1 "boom" (by decide) rfl

/-- Claim C4. A start command whose document reference does not resolve to
existing content yields the single fatal error event and nothing else: no
progress, module-started, module-completed, module-failed, or terminal
success event, and no stage is processed. -/
theorem C4_missingDocument_singleFatalError (env : Env) (ms : List String)
    (h : env.fileExists = false) :
    startExtraction env ms = [Event.error "File not found"]
    ∧ countModuleStart (startExtraction env ms) = 0
    ∧ countModuleComplete (startExtraction env ms) = 0
    ∧ countModuleError (startExtraction env ms) = 0
    ∧ progressPercents (startExtraction env ms) = []
    ∧ (startExtraction env ms).countP isExtractionComplete = 0
    ∧ (startExtraction env ms).countP isFatalError = 1 := by
  have he : startExtraction env ms = [Event.error "File not found"] := by
    simp [startExtraction, h]
  refine ⟨he, ?_, ?_, ?_, ?_, ?_, ?_⟩ <;> rw [he] <;> decide

/-- Claim C4, witness: a missing document with a nonempty stage list. -/
theorem C4_missingDocument_singleFatalError_witness :
    startExtraction envMissing ["tables"] = [Event.error "File not found"]
    ∧ countModuleStart (startExtraction envMissing ["tables"]) = 0
    ∧ countModuleComplete (startExtraction envMissing ["tables"]) = 0
    ∧ countModuleError (startExtraction envMissing ["tables"]) = 0
    ∧ progressPercents (startExtraction envMissing ["tables"]) = []
    ∧ (startExtraction envMissing ["tables"]).countP isExtractionComplete = 0
    ∧ (startExtraction envMissing ["tables"]).countP isFatalError = 1 :=
  C4_missingDocument_singleFatalError envMissing ["tables"] rfl

/-- Claim C5. For every run on an existing document — the empty stage list
and lists with unknown identifiers included — the progress percents are
emitted in non-decreasing order, the last of them is exactly 100, the event
just before the terminal event is that percent-100 progress event, and the
run ends with the terminal success event. -/
theorem C5_progressMonotone_lastIs100 (env : Env) (ms : List String)
    (h : env.fileExists = true) :
    List.Chain' (· ≤ ·) (progressPercents (startExtraction env ms))
    ∧ (progressPercents (startExtraction env ms)).getLast? = some 100
    ∧ (startExtraction env ms).dropLast.getLast?
        = some (Event.progress "complete" "Extraction complete!" 100)
    ∧ (startExtraction env ms).getLast?
        = some (Event.extractionComplete (finalResult env ms) ms) := by
  have hp := progressPercents_startExtraction env ms h
  have hchain := chain_le_percents env ms emptyResult 0 ms.length 5
    (by omega) (by norm_num)
  refine ⟨?_, ?_, startExtraction_dropLast_getLast env ms h,
    startExtraction_getLast env ms h⟩
  · rw [hp]
    exact hchain
  · rw [hp, ← List.cons_append, List.getLast?_concat]

/-- Claim C5, witness: a run mixing known stages, an unknown identifier and
a harmonizer no-op. -/
theorem C5_progressMonotone_lastIs100_witness :
    List.Chain' (· ≤ ·)
        (progressPercents (startExtraction envAllOk ["tables", "bogus", "harmonizer"]))
    ∧ (progressPercents (startExtraction envAllOk ["tables", "bogus", "harmonizer"])).getLast?
        = some 100
    ∧ (startExtraction envAllOk ["tables", "bogus", "harmonizer"]).dropLast.getLast?
        = some (Event.progress "complete" "Extraction complete!" 100)
    ∧ (startExtraction envAllOk ["tables", "bogus", "harmonizer"]).getLast?
        = some (Event.extractionComplete
            (finalResult envAllOk ["tables", "bogus", "harmonizer"])
            ["tables", "bogus", "harmonizer"]) :=
  C5_progressMonotone_lastIs100 envAllOk ["tables", "bogus", "harmonizer"] rfl

/-- Claim C6. With a harmonizer capability that succeeds when invoked and a
record not yet carrying harmonized outcomes: the harmonizer stage populates
the harmonized-outcomes field exactly when "outcomes" is present; its
module-started event is emitted first in every case; when "outcomes" is
absent the iteration emits only that started event and changes nothing; and
a completed-or-failed event is emitted exactly when "outcomes" is present
(the capability is invoked only then). -/
theorem C6_harmonizerGatedOnOutcomes (env : Env) (r : AccumulatedResult)
    (hinit : r.harmonized_outcomes = none)
    (hcap : ∀ o, ∃ hr, env.harmonizeOutcomes o = Except.ok hr) :
    (processModule env "harmonizer" r).2.harmonized_outcomes.isSome
        = r.outcomes.isSome
    ∧ (processModule env "harmonizer" r).1.head?
        = some (Event.moduleStart "harmonizer" "Outcome Harmonizer")
    ∧ (r.outcomes = none →
        processModule env "harmonizer" r
          = ([Event.moduleStart "harmonizer" "Outcome Harmonizer"], r))
    ∧ countModuleComplete (processModule env "harmonizer" r).1
        + countModuleError (processModule env "harmonizer" r).1
      = (if r.outcomes.isSome then 1 else 0) := by
  cases ho : r.outcomes with
  | none =>
      simp [processModule, ho, hinit, countModuleComplete, countModuleError,
        isModuleComplete, isModuleError]
  | some o =>
      obtain ⟨hr, hcapo⟩ := hcap o
      simp [processModule, ho, hcapo, countModuleComplete, countModuleError,
        isModuleComplete, isModuleError]

/-- Claim C6, witness: an accumulated record already carrying "outcomes". -/
theorem C6_harmonizerGatedOnOutcomes_witness :
    (processModule envAllOk "harmonizer" resultWithOutcomes).2.harmonized_outcomes.isSome
        = resultWithOutcomes.outcomes.isSome
    ∧ (processModule envAllOk "harmonizer" resultWithOutcomes).1.head?
        = some (Event.moduleStart "harmonizer" "Outcome Harmonizer")
    ∧ (resultWithOutcomes.outcomes = none →
        processModule envAllOk "harmonizer" resultWithOutcomes
          = ([Event.moduleStart "harmonizer" "Outcome Harmonizer"],
              resultWithOutcomes))
    ∧ countModuleComplete (processModule envAllOk "harmonizer" resultWithOutcomes).1
        + countModuleError (processModule envAllOk "harmonizer" resultWithOutcomes).1
      = (if resultWithOutcomes.outcomes.isSome then 1 else 0) :=
  C6_harmonizerGatedOnOutcomes envAllOk resultWithOutcomes rfl
    (fun _ => ⟨⟨⟨["tp1", "tp2"]⟩⟩, rfl⟩)

/-- Claim C7, counterexample. The claim says an unknown identifier is
skipped with no event emitted for it; but the loop emits its per-stage
progress event before the switch (server.ts line 114), so a run of the
single unknown stage "bogus" contains a progress event naming it. -/
theorem C7_counterexample_progressForUnknown :
    Event.progress "bogus" "Running bogus extractor..." 10
      ∈ startExtraction envAllOk ["bogus"] := by
  simp [startExtraction, processModules, processModule, envAllOk]

/-- Claim C7, amended: an unknown stage identifier is skipped with no
module event (no module-started, module-completed or module-failed event)
and no error — though the per-stage progress event naming it is still
emitted — and the run proceeds through the remaining stages to the
terminal success event. -/
theorem C7_unknownStage_silentModuleSkip (env : Env) (m : String)
    (r : AccumulatedResult) (rest ms : List String) (c t : ℕ)
    (hm : isKnownStage m = false) (h : env.fileExists = true) :
    processModule env m r = ([], r)
    ∧ (processModules env (m :: rest) r c t).1
        = Event.progress m ("Running " ++ m ++ " extractor...")
            (10 + ((c : ℚ) / (t : ℚ)) * 80)
          :: (processModules env rest r (c + 1) t).1
    ∧ (processModules env (m :: rest) r c t).2
        = (processModules env rest r (c + 1) t).2
    ∧ (startExtraction env ms).getLast?
        = some (Event.extractionComplete (finalResult env ms) ms) := by
  have hpm := processModule_unknown env m r hm
  exact ⟨hpm, by simp [processModules, hpm], by simp [processModules, hpm],
    startExtraction_getLast env ms h⟩

/-- Claim C7, amended, witness: the unknown identifier "bogus" followed by
a known stage. -/
theorem C7_unknownStage_silentModuleSkip_witness :
    processModule envAllOk "bogus" emptyResult = ([], emptyResult)
    ∧ (processModules envAllOk ["bogus", "tables"] emptyResult 0 2).1
        = Event.progress "bogus" ("Running " ++ "bogus" ++ " extractor...")
            (10 + (((0 : ℕ) : ℚ) / ((2 : ℕ) : ℚ)) * 80)
          :: (processModules envAllOk ["tables"] emptyResult (0 + 1) 2).1
    ∧ (processModules envAllOk ["bogus", "tables"] emptyResult 0 2).2
        = (processModules envAllOk ["tables"] emptyResult (0 + 1) 2).2
    ∧ (startExtraction envAllOk ["bogus", "tables"]).getLast?
        = some (Event.extractionComplete
            (finalResult envAllOk ["bogus", "tables"]) ["bogus", "tables"]) :=
  C7_unknownStage_silentModuleSkip envAllOk "bogus" emptyResult ["tables"]
    ["bogus", "tables"] 0 2 (by decide) rfl

/-- Claim C8. On success of the citation extractor with citation sequence
`cr.citations`, the accumulated record's citations field is set to that
ordered sequence and the derived metadata has `total_extracted` equal to
the count, `valid_citations` equal to the number of citations with quality
score strictly above 0.7, and `duplicates_removed` equal to 0. -/
theorem C8_citationsMergeAndMetadata (env : Env) (r : AccumulatedResult)
    (cr : CitationsResult) (hc : env.extractCitations = Except.ok cr) :
    (processModule env "citations" r).2.citations = some cr.citations
    ∧ (processModule env "citations" r).2.citations_metadata.map
        CitationsMetadata.total_extracted = some cr.citations.length
    ∧ (processModule env "citations" r).2.citations_metadata.map
        CitationsMetadata.valid_citations
      = some (cr.citations.countP fun c => decide ((0.7 : ℚ) < c.quality_score))
    ∧ (processModule env "citations" r).2.citations_metadata.map
        CitationsMetadata.duplicates_removed = some 0 := by
  simp [processModule, hc, List.countP_eq_length_filter]

/-- Claim C8, witness: two citations with quality scores 9/10 and 1/2. -/
theorem C8_citationsMergeAndMetadata_witness :
    (processModule envAllOk "citations" emptyResult).2.citations
      = some (⟨[⟨"c1", 9/10⟩, ⟨"c2", 1/2⟩]⟩ : CitationsResult).citations
    ∧ (processModule envAllOk "citations" emptyResult).2.citations_metadata.map
        CitationsMetadata.total_extracted
      = some (⟨[⟨"c1", 9/10⟩, ⟨"c2", 1/2⟩]⟩ : CitationsResult).citations.length
    ∧ (processModule envAllOk "citations" emptyResult).2.citations_metadata.map
        CitationsMetadata.valid_citations
      = some ((⟨[⟨"c1", 9/10⟩, ⟨"c2", 1/2⟩]⟩ : CitationsResult).citations.countP
          fun c => decide ((0.7 : ℚ) < c.quality_score))
    ∧ (processModule envAllOk "citations" emptyResult).2.citations_metadata.map
        CitationsMetadata.duplicates_removed = some 0 :=
  C8_citationsMergeAndMetadata envAllOk emptyResult ⟨[⟨"c1", 9/10⟩, ⟨"c2", 1/2⟩]⟩ rfl

/-- Claim C9. The claim requires a start command received while the session
is Processing to be rejected or explicitly queued. The handler keeps no
Processing state at all — the model's `Env` has no such component because
server.ts has none — so every start command whose document exists is
accepted and silently drives a full run into the channel: evaluated at a
concrete command, the run emits no fatal error, opens with the reading
progress event, and completes normally. A second command arriving mid-run
therefore starts a second concurrent run on the same channel. -/
theorem C9_startAcceptedUnconditionally :
    (startExtraction envAllOk ["tables"]).countP isFatalError = 0
    ∧ (startExtraction envAllOk ["tables"]).head?
        = some (Event.progress "reading" "Reading PDF file..." 5)
    ∧ (startExtraction envAllOk ["tables"]).getLast?
        = some (Event.extractionComplete (finalResult envAllOk ["tables"])
            ["tables"]) := by
  refine ⟨by decide, by simp [startExtraction, envAllOk],
    startExtraction_getLast envAllOk ["tables"] rfl⟩

/-- Claim C10. On success of the citation extractor, the module-completed
event's payload carries the full citation count but only the first
min(count, 5) citations, while the accumulated record keeps the whole
sequence; for more than five citations the payload is a strict truncation
of the accumulated field. -/
theorem C10_completePayloadTruncatedToFive (env : Env) (r : AccumulatedResult)
    (cr : CitationsResult) (hc : env.extractCitations = Except.ok cr) :
    (processModule env "citations" r).1
      = [Event.moduleStart "citations" "Citation Extractor",
         Event.moduleComplete "citations"
           (EventPayload.citationsData cr.citations.length (cr.citations.take 5))
           ("Extracted " ++ toString cr.citations.length
             ++ " citations (92.1% accuracy)")]
    ∧ (processModule env "citations" r).2.citations = some cr.citations
    ∧ (cr.citations.take 5).length = min cr.citations.length 5
    ∧ (5 < cr.citations.length → cr.citations.take 5 ≠ cr.citations) := by
  refine ⟨by simp [processModule, hc], by simp [processModule, hc], ?_, ?_⟩
  · rw [List.length_take]
    exact Nat.min_comm 5 _
  · intro h5 heq
    have hlen := congrArg List.length heq
    rw [List.length_take] at hlen
    omega

/-- Claim C10, witness: six extracted citations, so the payload keeps five. -/
theorem C10_completePayloadTruncatedToFive_witness :
    (processModule envSixCitations "citations" emptyResult).1
      = [Event.moduleStart "citations" "Citation Extractor",
         Event.moduleComplete "citations"
           (EventPayload.citationsData
             (⟨[⟨"c1", 1⟩, ⟨"c2", 1⟩, ⟨"c3", 1⟩, ⟨"c4", 1⟩, ⟨"c5", 1⟩, ⟨"c6", 1⟩]⟩
               : CitationsResult).citations.length
             ((⟨[⟨"c1", 1⟩, ⟨"c2", 1⟩, ⟨"c3", 1⟩, ⟨"c4", 1⟩, ⟨"c5", 1⟩, ⟨"c6", 1⟩]⟩
               : CitationsResult).citations.take 5))
           ("Extracted "
             ++ toString (⟨[⟨"c1", 1⟩, ⟨"c2", 1⟩, ⟨"c3", 1⟩, ⟨"c4", 1⟩, ⟨"c5", 1⟩,
                 ⟨"c6", 1⟩]⟩ : CitationsResult).citations.length
             ++ " citations (92.1% accuracy)")]
    ∧ (processModule envSixCitations "citations" emptyResult).2.citations
      = some (⟨[⟨"c1", 1⟩, ⟨"c2", 1⟩, ⟨"c3", 1⟩, ⟨"c4", 1⟩, ⟨"c5", 1⟩, ⟨"c6", 1⟩]⟩
          : CitationsResult).citations
    ∧ ((⟨[⟨"c1", 1⟩, ⟨"c2", 1⟩, ⟨"c3", 1⟩, ⟨"c4", 1⟩, ⟨"c5", 1⟩, ⟨"c6", 1⟩]⟩
          : CitationsResult).citations.take 5).length
      = min (⟨[⟨"c1", 1⟩, ⟨"c2", 1⟩, ⟨"c3", 1⟩, ⟨"c4", 1⟩, ⟨"c5", 1⟩, ⟨"c6", 1⟩]⟩
          : CitationsResult).citations.length 5
    ∧ (5 < (⟨[⟨"c1", 1⟩, ⟨"c2", 1⟩, ⟨"c3", 1⟩, ⟨"c4", 1⟩, ⟨"c5", 1⟩, ⟨"c6", 1⟩]⟩
          : CitationsResult).citations.length →
        (⟨[⟨"c1", 1⟩, ⟨"c2", 1⟩, ⟨"c3", 1⟩, ⟨"c4", 1⟩, ⟨"c5", 1⟩, ⟨"c6", 1⟩]⟩
            : CitationsResult).citations.take 5
          ≠ (⟨[⟨"c1", 1⟩, ⟨"c2", 1⟩, ⟨"c3", 1⟩, ⟨"c4", 1⟩, ⟨"c5", 1⟩, ⟨"c6", 1⟩]⟩
              : CitationsResult).citations) :=
  C10_completePayloadTruncatedToFive envSixCitations emptyResult
    ⟨[⟨"c1", 1⟩, ⟨"c2", 1⟩, ⟨"c3", 1⟩, ⟨"c4", 1⟩, ⟨"c5", 1⟩, ⟨"c6", 1⟩]⟩ rfl

end TheAgent
